import Mathlib

/-!
Verification of the document-to-vector retrieval pipeline of the
OffHeadHunter repository: a shallow embedding in Lean 4 of
`src/text_processing.py` (token chunking and batched embedding),
`src/qdrant_storage.py` (point construction, batched upsert, delete),
`qdrant_config.py` (collection configurations) and
`test_semantic_matching.py` (query-side retrieval), together with
theorems settling the specification's claims about them.

Python integers are modelled as `Int` (with `Nat` for loop counters that
Python's `range(0, ...)` keeps non-negative), Python floats as `ℚ`
(no claim depends on floating-point rounding), Python lists as `List`,
Python dicts as functions `String → Option PValue`, raised exceptions as
`Except`, and the external services (the Google embedding API and the
Qdrant client) as explicit environment parameters.
-/

/-- A raised Python exception. The only exception the modelled code paths
can raise themselves is `ValueError` (from `range` with a zero step). -/
inductive PyErr where
  | valueError (msg : String)
  deriving DecidableEq, Repr

/-- The dictionary built by `TextProcessor.chunk_text` for one chunk:
keys `text`, `tokens`, `num_tokens`, `start_token`, `end_token`.
`start_token` and `end_token` are Python ints (they can be negative for
degenerate parameters), `num_tokens` is a list length, hence a `Nat`. -/
structure Chunk where
  text : String
  tokens : List Nat
  num_tokens : Nat
  start_token : Int
  end_token : Int
  deriving DecidableEq, Repr

/-- Python slice `l[start:stop]` for a non-negative `start` and an
arbitrary (possibly negative) `stop`: a negative `stop` counts from the
end of the list, and the result is empty when the effective stop does
not exceed `start`. -/
def pySlice (l : List α) (start : Nat) (stop : Int) : List α :=
  let stopIdx : Nat := if stop < 0 then (l.length + stop).toNat else min stop.toNat l.length
  (l.take stopIdx).drop start

/-- The chunk dictionary appended for window start `i` in
`chunk_text`: `chunk_tokens = tokens[i:i+chunk_size]`,
`end_token = min(i + chunk_size, len(tokens))`. -/
def mkChunk (decode : List Nat → String) (tokens : List Nat) (size : Int) (i : Nat) : Chunk :=
  let ct := pySlice tokens i ((i : Int) + size)
  { text := decode ct
    tokens := ct
    num_tokens := ct.length
    start_token := (i : Int)
    end_token := min ((i : Int) + size) (tokens.length : Int) }

/-- The loop `for i in range(0, len(tokens), step)` of `chunk_text`,
with its early `break` once `i + chunk_size >= len(tokens)`.
`step` is the (positive) value of `chunk_size - chunk_overlap`; `fuel`
is a structural-termination counter. Since the loop body runs only
while `i < len(tokens)` and `i` grows by `step ≥ 1` each iteration,
`fuel = len(tokens)` (what `chunk_text` passes) never runs out. -/
def chunkFrom (fuel : Nat) (decode : List Nat → String) (tokens : List Nat) (size : Int)
    (step : Nat) (i : Nat) : List Chunk :=
  match fuel with
  | 0 => []
  | fuel + 1 =>
    if i < tokens.length then
      let c := mkChunk decode tokens size i
      if (tokens.length : Int) ≤ (i : Int) + size then [c]
      else c :: chunkFrom fuel decode tokens size step (i + step)
    else []

/-- `TextProcessor.chunk_text`. The tokenizer (tiktoken `cl100k_base`)
is external; it is passed in as the pair `encode` / `decode`. Python's
`range(0, T, step)` raises `ValueError` for `step = 0` and yields
nothing for a negative step. -/
def chunk_text (encode : String → List Nat) (decode : List Nat → String) (text : String)
    (chunk_size chunk_overlap : Int) : Except PyErr (List Chunk) :=
  let tokens := encode text
  let step := chunk_size - chunk_overlap
  if step = 0 then .error (.valueError "range() arg 3 must not be zero")
  else if step < 0 then .ok []
  else .ok (chunkFrom tokens.length decode tokens chunk_size step.toNat 0)

-- Sanity checks of the embedding on concrete inputs (tokens 0..4, size 3, overlap 1).
example :
    chunk_text (fun _ => [10, 11, 12, 13, 14]) (fun _ => "") "x" 3 1 =
      .ok [⟨"", [10, 11, 12], 3, 0, 3⟩, ⟨"", [12, 13, 14], 3, 2, 5⟩] := rfl

example : chunk_text (fun _ => [10, 11, 12]) (fun _ => "") "x" 10 20 = .ok [] := rfl

example :
    chunk_text (fun _ => [10, 11, 12]) (fun _ => "") "x" 5 5 =
      .error (.valueError "range() arg 3 must not be zero") := rfl

example : chunk_text (fun _ => ([] : List Nat)) (fun _ => "") "x" 800 100 = .ok [] := rfl

/-! ### Basic facts about one chunk and one unfolding of the loop -/

theorem mkChunk_start_token (dec : List Nat → String) (tokens : List Nat) (size : Int)
    (i : Nat) : (mkChunk dec tokens size i).start_token = (i : Int) := rfl

theorem mkChunk_end_token (dec : List Nat → String) (tokens : List Nat) (size : Int)
    (i : Nat) :
    (mkChunk dec tokens size i).end_token = min ((i : Int) + size) (tokens.length : Int) := rfl

theorem mkChunk_num_tokens (dec : List Nat → String) (tokens : List Nat) (size : Int)
    (i : Nat) (hsize : 1 ≤ size) (hi : i < tokens.length) :
    ((mkChunk dec tokens size i).num_tokens : Int) =
      min ((i : Int) + size) (tokens.length : Int) - (i : Int) := by
  have hstop : ¬ ((i : Int) + size < 0) := by omega
  simp only [mkChunk, pySlice, List.length_drop, List.length_take, if_neg hstop]
  rw [min_assoc, min_self]
  rcases le_total ((i : Int) + size) (tokens.length : Int) with h | h
  · rw [min_eq_left h, min_eq_left (by omega : ((i : Int) + size).toNat ≤ tokens.length)]
    omega
  · rw [min_eq_right h, min_eq_right (by omega : tokens.length ≤ ((i : Int) + size).toNat)]
    omega

theorem chunkFrom_stop (fuel : Nat) (dec : List Nat → String) (tokens : List Nat)
    (size : Int) (step i : Nat) (h : ¬ i < tokens.length) :
    chunkFrom fuel dec tokens size step i = [] := by
  cases fuel with
  | zero => rfl
  | succ fuel => simp [chunkFrom, h]

theorem chunkFrom_break (fuel : Nat) (dec : List Nat → String) (tokens : List Nat)
    (size : Int) (step i : Nat) (h1 : i < tokens.length)
    (h2 : (tokens.length : Int) ≤ (i : Int) + size) :
    chunkFrom (fuel + 1) dec tokens size step i = [mkChunk dec tokens size i] := by
  simp [chunkFrom, h1, h2]

theorem chunkFrom_cons (fuel : Nat) (dec : List Nat → String) (tokens : List Nat)
    (size : Int) (step i : Nat) (h1 : i < tokens.length)
    (h2 : ¬ (tokens.length : Int) ≤ (i : Int) + size) :
    chunkFrom (fuel + 1) dec tokens size step i =
      mkChunk dec tokens size i :: chunkFrom fuel dec tokens size step (i + step) := by
  simp [chunkFrom, h1, h2]

theorem chunkFrom_head (fuel : Nat) (dec : List Nat → String) (tokens : List Nat)
    (size : Int) (step i : Nat) (hfuel : tokens.length - i ≤ fuel) (hi : i < tokens.length) :
    ∃ r, chunkFrom fuel dec tokens size step i = mkChunk dec tokens size i :: r := by
  cases fuel with
  | zero => omega
  | succ fuel =>
    by_cases h2 : (tokens.length : Int) ≤ (i : Int) + size
    · exact ⟨[], chunkFrom_break fuel dec tokens size step i hi h2⟩
    · exact ⟨_, chunkFrom_cons fuel dec tokens size step i hi h2⟩

/-! ### Invariants of the produced chunks -/

/-- Every chunk the loop produces from position `i` has a sound window:
start at least `i`, start strictly below end, end at most the token
count, and `num_tokens` equal to the window width. Holds for any fuel. -/
theorem chunkFrom_sound (dec : List Nat → String) (tokens : List Nat) (size : Int)
    (step : Nat) (hsize : 1 ≤ size) :
    ∀ fuel i, ∀ c ∈ chunkFrom fuel dec tokens size step i,
      (i : Int) ≤ c.start_token ∧ c.start_token < c.end_token ∧
      c.end_token ≤ (tokens.length : Int) ∧
      (c.num_tokens : Int) = c.end_token - c.start_token := by
  intro fuel
  induction fuel with
  | zero => intro i c hc; simp [chunkFrom] at hc
  | succ fuel ih =>
    intro i c hc
    by_cases hi : i < tokens.length
    · have hmk : (i : Int) ≤ (mkChunk dec tokens size i).start_token ∧
          (mkChunk dec tokens size i).start_token < (mkChunk dec tokens size i).end_token ∧
          (mkChunk dec tokens size i).end_token ≤ (tokens.length : Int) ∧
          ((mkChunk dec tokens size i).num_tokens : Int) =
            (mkChunk dec tokens size i).end_token - (mkChunk dec tokens size i).start_token := by
        rw [mkChunk_start_token, mkChunk_end_token,
          mkChunk_num_tokens dec tokens size i hsize hi]
        omega
      by_cases h2 : (tokens.length : Int) ≤ (i : Int) + size
      · rw [chunkFrom_break fuel dec tokens size step i hi h2] at hc
        rw [List.mem_singleton] at hc
        subst hc; exact hmk
      · rw [chunkFrom_cons fuel dec tokens size step i hi h2] at hc
        rcases List.mem_cons.mp hc with hc | hc
        · subst hc; exact hmk
        · have := ih (i + step) c hc
          refine ⟨?_, this.2.1, this.2.2.1, this.2.2.2⟩
          have h1 := this.1
          omega
    · rw [chunkFrom_stop (fuel + 1) dec tokens size step i hi] at hc
      simp at hc

/-- Coverage: every token position `t` with `i ≤ t < T` lies inside the
window of some produced chunk, provided the fuel is adequate and
`0 < step ≤ size`. -/
theorem chunkFrom_cover (dec : List Nat → String) (tokens : List Nat) (size : Int)
    (step : Nat) (hstep : 0 < step) (hss : (step : Int) ≤ size) :
    ∀ fuel i, tokens.length - i ≤ fuel →
      ∀ t : Int, (i : Int) ≤ t → t < (tokens.length : Int) →
        ∃ c ∈ chunkFrom fuel dec tokens size step i, c.start_token ≤ t ∧ t < c.end_token := by
  intro fuel
  induction fuel with
  | zero => intro i hfuel t ht1 ht2; omega
  | succ fuel ih =>
    intro i hfuel t ht1 ht2
    have hi : i < tokens.length := by omega
    by_cases h2 : (tokens.length : Int) ≤ (i : Int) + size
    · refine ⟨mkChunk dec tokens size i, ?_, ?_, ?_⟩
      · rw [chunkFrom_break fuel dec tokens size step i hi h2]; exact List.mem_singleton.mpr rfl
      · rw [mkChunk_start_token]; exact ht1
      · rw [mkChunk_end_token]; omega
    · by_cases ht3 : t < (i : Int) + size
      · refine ⟨mkChunk dec tokens size i, ?_, ?_, ?_⟩
        · rw [chunkFrom_cons fuel dec tokens size step i hi h2]; exact List.mem_cons_self _ _
        · rw [mkChunk_start_token]; exact ht1
        · rw [mkChunk_end_token]; omega
      · obtain ⟨c, hc, hct⟩ := ih (i + step) (by omega) t (by push_cast; omega) ht2
        refine ⟨c, ?_, hct⟩
        rw [chunkFrom_cons fuel dec tokens size step i hi h2]
        exact List.mem_cons_of_mem _ hc

/-- Consecutive chunks: the next window starts exactly `step` later, a
non-final window is full-sized, and windows have monotone right ends. -/
theorem chunkFrom_chain (dec : List Nat → String) (tokens : List Nat) (size : Int)
    (step : Nat) (hstep : 0 < step) (hss : (step : Int) ≤ size) :
    ∀ fuel i, tokens.length - i ≤ fuel →
      List.Chain'
        (fun a b => b.start_token = a.start_token + (step : Int) ∧
          a.end_token = a.start_token + size ∧ a.end_token ≤ b.end_token)
        (chunkFrom fuel dec tokens size step i) := by
  intro fuel
  induction fuel with
  | zero => intro i hfuel; simp [chunkFrom]
  | succ fuel ih =>
    intro i hfuel
    by_cases hi : i < tokens.length
    · by_cases h2 : (tokens.length : Int) ≤ (i : Int) + size
      · rw [chunkFrom_break fuel dec tokens size step i hi h2]
        exact List.chain'_singleton _
      · rw [chunkFrom_cons fuel dec tokens size step i hi h2]
        have hnext : i + step < tokens.length := by omega
        refine List.chain'_cons'.mpr ⟨?_, ih (i + step) (by omega)⟩
        intro y hy
        obtain ⟨r, hr⟩ := chunkFrom_head fuel dec tokens size step (i + step) (by omega) hnext
        rw [hr] at hy
        simp only [List.head?_cons, Option.mem_def, Option.some.injEq] at hy
        subst hy
        rw [mkChunk_start_token, mkChunk_end_token, mkChunk_start_token, mkChunk_end_token]
        push_cast
        omega
    · rw [chunkFrom_stop (fuel + 1) dec tokens size step i hi]
      simp

/-- The loop never drops the tail: the final produced chunk ends exactly
at the total token count. -/
theorem chunkFrom_last (dec : List Nat → String) (tokens : List Nat) (size : Int)
    (step : Nat) (hstep : 0 < step) (hss : (step : Int) ≤ size) :
    ∀ fuel i, tokens.length - i ≤ fuel → i < tokens.length →
      ∃ cs c, chunkFrom fuel dec tokens size step i = cs ++ [c] ∧
        c.end_token = (tokens.length : Int) := by
  intro fuel
  induction fuel with
  | zero => intro i hfuel hi; omega
  | succ fuel ih =>
    intro i hfuel hi
    by_cases h2 : (tokens.length : Int) ≤ (i : Int) + size
    · refine ⟨[], mkChunk dec tokens size i, chunkFrom_break fuel dec tokens size step i hi h2, ?_⟩
      rw [mkChunk_end_token]; omega
    · have hnext : i + step < tokens.length := by omega
      obtain ⟨cs, c, hcs, hc⟩ := ih (i + step) (by omega) hnext
      refine ⟨mkChunk dec tokens size i :: cs, c, ?_, hc⟩
      rw [chunkFrom_cons fuel dec tokens size step i hi h2, hcs, List.cons_append]

/-- Chunk count for the parameters of claim C6: `chunk_size = 800`,
`chunk_overlap = 100`, hence step `700`. -/
theorem chunkFrom_count_800 (dec : List Nat → String) (tokens : List Nat) :
    ∀ fuel i, tokens.length - i ≤ fuel → i < tokens.length →
      (chunkFrom fuel dec tokens 800 700 i).length =
        if (tokens.length : Int) ≤ (i : Int) + 800 then 1
        else (tokens.length - i - 801) / 700 + 2 := by
  intro fuel
  induction fuel with
  | zero => intro i hfuel hi; omega
  | succ fuel ih =>
    intro i hfuel hi
    by_cases h2 : (tokens.length : Int) ≤ (i : Int) + 800
    · rw [chunkFrom_break fuel dec tokens 800 700 i hi h2, if_pos h2]
      rfl
    · have hnext : i + 700 < tokens.length := by omega
      rw [chunkFrom_cons fuel dec tokens 800 700 i hi h2, if_neg h2, List.length_cons,
        ih (i + 700) (by omega) hnext]
      split
      · omega
      · omega

theorem chunkFrom_singleton (fuel : Nat) (dec : List Nat → String) (tokens : List Nat)
    (size : Int) (step i : Nat) (hfuel : 1 ≤ fuel) (h1 : i < tokens.length)
    (h2 : (tokens.length : Int) ≤ (i : Int) + size) :
    chunkFrom fuel dec tokens size step i = [mkChunk dec tokens size i] := by
  cases fuel with
  | zero => omega
  | succ fuel => exact chunkFrom_break fuel dec tokens size step i h1 h2

/-- On parameters with a positive step, `chunk_text` runs the window loop. -/
theorem chunk_text_pos_step (encode : String → List Nat) (decode : List Nat → String)
    (text : String) (size overlap : Int) (h : overlap < size) :
    chunk_text encode decode text size overlap =
      .ok (chunkFrom (encode text).length decode (encode text) size (size - overlap).toNat 0) := by
  simp only [chunk_text]
  rw [if_neg (by omega), if_neg (by omega)]

/-! ### Claim C1 -/

/-- C1: for a text with a positive token count and parameters
`0 < chunk_overlap < chunk_size`, the chunks returned by `chunk_text`
satisfy `0 ≤ start_token < end_token ≤ T` and
`num_tokens = end_token - start_token`; the first chunk starts at token
0; every position of `[0, T)` is covered by some window (no gaps); each
pair of consecutive chunks overlaps by exactly `chunk_overlap` tokens
(the shared region is non-trivial: the next window starts inside the
previous one and ends no earlier); and the final chunk is never
dropped — it ends exactly at `T`. -/
theorem chunk_text_window_invariants (encode : String → List Nat) (decode : List Nat → String)
    (text : String) (size overlap : Int)
    (ho : 0 < overlap) (hso : overlap < size) (hT : 0 < (encode text).length) :
    ∃ cs, chunk_text encode decode text size overlap = .ok cs ∧
      (∀ c ∈ cs, 0 ≤ c.start_token ∧ c.start_token < c.end_token ∧
        c.end_token ≤ ((encode text).length : Int) ∧
        (c.num_tokens : Int) = c.end_token - c.start_token) ∧
      (∃ c₀ r, cs = c₀ :: r ∧ c₀.start_token = 0) ∧
      (∀ t : Int, 0 ≤ t → t < ((encode text).length : Int) →
        ∃ c ∈ cs, c.start_token ≤ t ∧ t < c.end_token) ∧
      List.Chain' (fun a b => a.start_token < b.start_token ∧
        b.start_token + overlap = a.end_token ∧ a.end_token ≤ b.end_token) cs ∧
      (∃ r clast, cs = r ++ [clast] ∧ clast.end_token = ((encode text).length : Int)) := by
  have hstepN : 0 < (size - overlap).toNat := by omega
  have hcast : ((size - overlap).toNat : Int) = size - overlap := by omega
  have hss : ((size - overlap).toNat : Int) ≤ size := by omega
  have hsize : 1 ≤ size := by omega
  refine ⟨_, chunk_text_pos_step encode decode text size overlap hso, ?_, ?_, ?_, ?_, ?_⟩
  · intro c hc
    have h := chunkFrom_sound decode (encode text) size (size - overlap).toNat hsize
      (encode text).length 0 c hc
    push_cast at h
    exact ⟨by omega, h.2.1, h.2.2.1, h.2.2.2⟩
  · obtain ⟨r, hr⟩ := chunkFrom_head (encode text).length decode (encode text) size
      (size - overlap).toNat 0 (by omega) hT
    exact ⟨_, r, hr, by rw [mkChunk_start_token]; norm_num⟩
  · intro t ht1 ht2
    exact chunkFrom_cover decode (encode text) size (size - overlap).toNat hstepN hss
      (encode text).length 0 (by omega) t (by push_cast; omega) ht2
  · refine (chunkFrom_chain decode (encode text) size (size - overlap).toNat hstepN hss
      (encode text).length 0 (by omega)).imp ?_
    intro a b hab
    refine ⟨by omega, by omega, hab.2.2⟩
  · exact chunkFrom_last decode (encode text) size (size - overlap).toNat hstepN hss
      (encode text).length 0 (by omega) hT

/-- Witness for C1 at a concrete input: five tokens, `chunk_size = 3`,
`chunk_overlap = 1`. -/
theorem chunk_text_window_invariants_witness :
    ∃ cs, chunk_text (fun _ => [10, 11, 12, 13, 14]) (fun _ => "") "x" 3 1 = .ok cs ∧
      (∀ c ∈ cs, 0 ≤ c.start_token ∧ c.start_token < c.end_token ∧
        c.end_token ≤ ((((fun _ => [10, 11, 12, 13, 14]) "x" : List Nat)).length : Int) ∧
        (c.num_tokens : Int) = c.end_token - c.start_token) ∧
      (∃ c₀ r, cs = c₀ :: r ∧ c₀.start_token = 0) ∧
      (∀ t : Int, 0 ≤ t → t < ((((fun _ => [10, 11, 12, 13, 14]) "x" : List Nat)).length : Int) →
        ∃ c ∈ cs, c.start_token ≤ t ∧ t < c.end_token) ∧
      List.Chain' (fun a b => a.start_token < b.start_token ∧
        b.start_token + 1 = a.end_token ∧ a.end_token ≤ b.end_token) cs ∧
      (∃ r clast, cs = r ++ [clast] ∧
        clast.end_token = ((((fun _ => [10, 11, 12, 13, 14]) "x" : List Nat)).length : Int)) :=
  chunk_text_window_invariants (fun _ => [10, 11, 12, 13, 14]) (fun _ => "") "x" 3 1
    (by norm_num) (by norm_num) (by decide)

/-! ### Claim C5 -/

/-- C5 counterexample: with `chunk_size = 10` and `chunk_overlap = 20`
(a combination the claim says must fail with `InvalidParameter`),
`chunk_text` instead returns a chunk list — the empty one — because the
code contains no parameter validation at all: the loop step
`10 - 20 = -10` makes `range(0, 3, -10)` yield nothing. -/
theorem chunk_text_bad_params_counterexample :
    chunk_text (fun _ => [10, 11, 12]) (fun _ => "") "x" 10 20 = .ok [] := rfl

/-- C5 amended: `chunk_text` performs no `InvalidParameter` validation.
With `chunk_overlap = chunk_size` it raises `ValueError` (from
`range` with zero step); with `chunk_overlap > chunk_size` it returns
the empty chunk list; with `chunk_size ≤ 0` but still
`chunk_overlap < chunk_size` it returns a chunk list as well. -/
theorem chunk_text_bad_params_behavior (encode : String → List Nat)
    (decode : List Nat → String) (text : String) (size overlap : Int) :
    (overlap = size →
      chunk_text encode decode text size overlap =
        .error (.valueError "range() arg 3 must not be zero")) ∧
    (size < overlap → chunk_text encode decode text size overlap = .ok []) ∧
    (size ≤ 0 → overlap < size →
      ∃ cs, chunk_text encode decode text size overlap = .ok cs) := by
  refine ⟨fun h => ?_, fun h => ?_, fun h1 h2 => ?_⟩
  · simp only [chunk_text]
    rw [if_pos (by omega)]
  · simp only [chunk_text]
    rw [if_neg (by omega), if_pos (by omega)]
  · exact ⟨_, chunk_text_pos_step encode decode text size overlap h2⟩

/-- Witness for the amended C5 at concrete degenerate parameters. -/
theorem chunk_text_bad_params_behavior_witness :
    chunk_text (fun _ => [10, 11, 12]) (fun _ => "") "x" 5 5 =
      .error (.valueError "range() arg 3 must not be zero") ∧
    chunk_text (fun _ => [10, 11, 12]) (fun _ => "") "x" 7 20 = .ok [] ∧
    ∃ cs, chunk_text (fun _ => [10, 11, 12]) (fun _ => "") "x" (-3) (-7) = .ok cs :=
  ⟨(chunk_text_bad_params_behavior (fun _ => [10, 11, 12]) (fun _ => "") "x" 5 5).1 rfl,
   (chunk_text_bad_params_behavior (fun _ => [10, 11, 12]) (fun _ => "") "x" 7 20).2.1
     (by norm_num),
   (chunk_text_bad_params_behavior (fun _ => [10, 11, 12]) (fun _ => "") "x" (-3) (-7)).2.2
     (by norm_num) (by norm_num)⟩

/-! ### Claim C6 -/

/-- C6: with `chunk_size = 800` and `chunk_overlap = 100`, `chunk_text`
returns no chunks for an empty token sequence (not an error), exactly
one chunk covering the whole text for `0 < T ≤ 800`, and exactly
`ceil((T - 800) / 700) + 1` chunks for `T > 800` — written below with
natural-number division as `(T - 800 + 699) / 700 + 1`. -/
theorem chunk_text_count_formula (encode : String → List Nat) (decode : List Nat → String)
    (text : String) :
    ((encode text).length = 0 → chunk_text encode decode text 800 100 = .ok []) ∧
    (0 < (encode text).length → (encode text).length ≤ 800 →
      ∃ c, chunk_text encode decode text 800 100 = .ok [c] ∧
        c.start_token = 0 ∧ c.end_token = ((encode text).length : Int)) ∧
    (800 < (encode text).length →
      ∃ cs, chunk_text encode decode text 800 100 = .ok cs ∧
        cs.length = ((encode text).length - 800 + 699) / 700 + 1) := by
  have hpos := chunk_text_pos_step encode decode text 800 100 (by norm_num)
  have h700 : ((800 : Int) - 100).toNat = 700 := rfl
  rw [h700] at hpos
  refine ⟨fun h0 => ?_, fun h1 h2 => ?_, fun h3 => ?_⟩
  · rw [hpos, chunkFrom_stop _ _ _ _ _ _ (by omega)]
  · refine ⟨mkChunk decode (encode text) 800 0, ?_, rfl, ?_⟩
    · rw [hpos, chunkFrom_singleton _ _ _ _ _ _ (by omega) h1 (by push_cast; omega)]
    · rw [mkChunk_end_token]
      omega
  · refine ⟨_, hpos, ?_⟩
    rw [chunkFrom_count_800 decode (encode text) (encode text).length 0 (by omega) (by omega),
      if_neg (by push_cast; omega)]
    omega

set_option maxRecDepth 100000 in
/-- Witness for C6 on a token sequence of length 1501 (expected chunk
count `ceil(701 / 700) + 1 = 3`). -/
theorem chunk_text_count_formula_witness :
    (800 < ((fun _ => List.replicate 1501 0) "x" : List Nat).length) ∧
    ∃ cs, chunk_text (fun _ => List.replicate 1501 0) (fun _ => "") "x" 800 100 = .ok cs ∧
      cs.length = (((fun _ => List.replicate 1501 0) "x" : List Nat).length - 800 + 699)
        / 700 + 1 :=
  ⟨by norm_num [List.length_replicate],
   (chunk_text_count_formula (fun _ => List.replicate 1501 0) (fun _ => "") "x").2.2
     (by norm_num [List.length_replicate])⟩

/-! ## Embedding client: `TextProcessor.generate_embeddings`

The external Google embedding API is modelled by an environment: a
fixed per-text embedding function (the deployment's embedding model)
and a batch-level failure predicate saying which calls to
`genai.embed_content` raise. -/

/-- Model of the external embedding capability. -/
structure EmbedEnv where
  embed : String → List ℚ
  fails : List String → Bool

/-- The loop `for i in range(0, len(texts), batch_size)` of
`generate_embeddings`: each batch `texts[i:i+batch_size]` either maps
through the API or — on failure — contributes one printed error line
and one `np.zeros(768)` placeholder per batch text
(`expected_dim = 768` is hardcoded in the source). The first component
collects `all_embeddings`, the second the printed error events. `fuel`
is a structural-termination counter; `generate_embeddings` passes
`fuel = len(texts)`, which suffices because `i` grows by `bs ≥ 1` while
the loop body requires `i < len(texts)`. -/
def embedLoop (env : EmbedEnv) (texts : List String) (bs : Nat) : Nat → Nat →
    List (List ℚ) × List String
  | 0, _ => ([], [])
  | fuel + 1, i =>
    if i < texts.length then
      let batch := (texts.drop i).take bs
      let piece : List (List ℚ) × List String :=
        if env.fails batch then
          (List.replicate batch.length (List.replicate 768 (0 : ℚ)),
           ["Error generando embeddings para el lote " ++ toString (i / bs + 1)])
        else (batch.map env.embed, [])
      let rest := embedLoop env texts bs fuel (i + bs)
      (piece.1 ++ rest.1, piece.2 ++ rest.2)
    else ([], [])

/-- `TextProcessor.generate_embeddings` on a list input. The result
pairs the returned embedding array with the list of printed per-batch
error events. Python's `range` raises `ValueError` on a zero step and
yields nothing on a negative one. -/
def generate_embeddings (env : EmbedEnv) (texts : List String) (batch_size : Int) :
    Except PyErr (List (List ℚ) × List String) :=
  if batch_size = 0 then .error (.valueError "range() arg 3 must not be zero")
  else if batch_size < 0 then .ok ([], [])
  else .ok (embedLoop env texts batch_size.toNat texts.length 0)

/-- The list of batch start indices `i, i+bs, i+2*bs, ...` below `n`,
used to count the per-batch failure events. -/
def batchStarts (n bs : Nat) : Nat → Nat → List Nat
  | 0, _ => []
  | fuel + 1, i => if i < n then i :: batchStarts n bs fuel (i + bs) else []

-- Sanity check: three texts, batch size 2, second batch fails.
example :
    generate_embeddings
      ⟨fun s => [(s.length : ℚ)], fun b => decide (b.contains "bad")⟩
      ["aa", "bbb", "bad"] 2 =
      .ok ([[2], [3], List.replicate 768 0],
        ["Error generando embeddings para el lote 2"]) := rfl

theorem embedLoop_stop (env : EmbedEnv) (texts : List String) (bs fuel i : Nat)
    (h : ¬ i < texts.length) : embedLoop env texts bs fuel i = ([], []) := by
  cases fuel with
  | zero => rfl
  | succ fuel => simp [embedLoop, h]

theorem embedLoop_step (env : EmbedEnv) (texts : List String) (bs fuel i : Nat)
    (h : i < texts.length) :
    embedLoop env texts bs (fuel + 1) i =
      (let batch := (texts.drop i).take bs
       let piece : List (List ℚ) × List String :=
        if env.fails batch then
          (List.replicate batch.length (List.replicate 768 (0 : ℚ)),
           ["Error generando embeddings para el lote " ++ toString (i / bs + 1)])
        else (batch.map env.embed, [])
       let rest := embedLoop env texts bs fuel (i + bs)
       (piece.1 ++ rest.1, piece.2 ++ rest.2)) := by
  simp only [embedLoop, if_pos h]

/-- One output vector per input text, whatever the batching. -/
theorem embedLoop_length (env : EmbedEnv) (texts : List String) (bs : Nat) (hbs : 0 < bs) :
    ∀ fuel i, texts.length - i ≤ fuel →
      (embedLoop env texts bs fuel i).1.length = texts.length - i := by
  intro fuel
  induction fuel with
  | zero => intro i hfuel; rw [embedLoop_stop env texts bs 0 i (by omega)]; simp; omega
  | succ fuel ih =>
    intro i hfuel
    by_cases h : i < texts.length
    · rw [embedLoop_step env texts bs fuel i h]
      simp only [List.length_append]
      rw [ih (i + bs) (by omega)]
      by_cases hf : env.fails ((texts.drop i).take bs)
      · simp only [if_pos hf, List.length_replicate, List.length_take, List.length_drop]
        omega
      · simp only [if_neg hf, List.length_map, List.length_take, List.length_drop]
        omega
    · rw [embedLoop_stop env texts bs (fuel + 1) i h]
      simp; omega

/-- Elementwise description of `generate_embeddings`: position `j`
belongs to the batch starting at `(j / bs) * bs`; if that batch's API
call fails the output is the 768-dimensional zero placeholder, and
otherwise it is the batch-independent embedding of the `j`-th text. -/
theorem embedLoop_getElem (env : EmbedEnv) (texts : List String) (bs : Nat) (hbs : 0 < bs) :
    ∀ fuel i j, texts.length - i ≤ fuel → j < texts.length - i →
      (embedLoop env texts bs fuel i).1[j]? =
        if env.fails ((texts.drop (i + j / bs * bs)).take bs)
        then some (List.replicate 768 (0 : ℚ))
        else (texts[i + j]?).map env.embed := by
  intro fuel
  induction fuel with
  | zero => intro i j hfuel hj; omega
  | succ fuel ih =>
    intro i j hfuel hj
    have hi : i < texts.length := by omega
    rw [embedLoop_step env texts bs fuel i hi]
    simp only
    by_cases hjb : j < bs
    · have hj0 : j / bs = 0 := Nat.div_eq_of_lt hjb
      simp only [hj0, Nat.zero_mul, Nat.add_zero]
      have hbatchlen : ((texts.drop i).take bs).length = min bs (texts.length - i) := by
        simp [List.length_take, List.length_drop]
      by_cases hf : env.fails ((texts.drop i).take bs)
      · rw [if_pos hf, if_pos hf]
        rw [List.getElem?_append_left
          (by simp only [List.length_replicate]; rw [hbatchlen]; omega)]
        rw [List.getElem?_replicate_of_lt (by rw [hbatchlen]; omega)]
      · rw [if_neg hf, if_neg hf]
        rw [List.getElem?_append_left
          (by simp only [List.length_map]; rw [hbatchlen]; omega)]
        rw [List.getElem?_map, List.getElem?_take_of_lt hjb, List.getElem?_drop]
    · have hble : bs ≤ j := Nat.le_of_not_lt hjb
      have hlen1 : (if env.fails ((texts.drop i).take bs)
          then (List.replicate ((texts.drop i).take bs).length (List.replicate 768 (0 : ℚ)),
            ["Error generando embeddings para el lote " ++ toString (i / bs + 1)])
          else (((texts.drop i).take bs).map env.embed,
            ([] : List String))).1.length = bs := by
        by_cases hf : env.fails ((texts.drop i).take bs)
        · simp only [if_pos hf, List.length_replicate, List.length_take, List.length_drop]
          omega
        · simp only [if_neg hf, List.length_map, List.length_take, List.length_drop]
          omega
      rw [List.getElem?_append_right (by rw [hlen1]; omega)]
      rw [hlen1]
      rw [ih (i + bs) (j - bs) (by omega) (by omega)]
      have hjj : j - bs + bs = j := Nat.sub_add_cancel hble
      have hdiv : j / bs = (j - bs) / bs + 1 := by
        conv_lhs => rw [← hjj]
        rw [Nat.add_div_right _ hbs]
      have harith : i + bs + (j - bs) / bs * bs = i + j / bs * bs := by
        rw [hdiv, Nat.add_mul, Nat.one_mul]
        omega
      have harith2 : i + bs + (j - bs) = i + j := by omega
      rw [harith, harith2]

/-- When no batch fails, the loop is exactly a map of the embedding
function over the texts from position `i` on. -/
theorem embedLoop_noFail (env : EmbedEnv) (texts : List String) (bs : Nat)
    (hbs : 0 < bs) (hnf : ∀ b, env.fails b = false) :
    ∀ fuel i, texts.length - i ≤ fuel →
      (embedLoop env texts bs fuel i).1 = (texts.drop i).map env.embed := by
  intro fuel
  induction fuel with
  | zero =>
    intro i hfuel
    rw [embedLoop_stop env texts bs 0 i (by omega),
      List.drop_eq_nil_of_le (by omega)]
    rfl
  | succ fuel ih =>
    intro i hfuel
    by_cases hi : i < texts.length
    · rw [embedLoop_step env texts bs fuel i hi]
      simp only [hnf ((texts.drop i).take bs), if_neg Bool.false_ne_true]
      rw [ih (i + bs) (by omega)]
      rw [← List.drop_drop, ← List.map_append, List.take_append_drop]
    · rw [embedLoop_stop env texts bs (fuel + 1) i hi,
        List.drop_eq_nil_of_le (by omega)]
      rfl

/-- One printed error event per failed batch: the log length equals the
number of batch start positions whose batch fails. -/
theorem embedLoop_logs (env : EmbedEnv) (texts : List String) (bs : Nat) :
    ∀ fuel i,
      (embedLoop env texts bs fuel i).2.length =
        ((batchStarts texts.length bs fuel i).filter
          (fun s => env.fails ((texts.drop s).take bs))).length := by
  intro fuel
  induction fuel with
  | zero => intro i; rfl
  | succ fuel ih =>
    intro i
    by_cases hi : i < texts.length
    · rw [embedLoop_step env texts bs fuel i hi]
      simp only [batchStarts, if_pos hi, List.filter_cons]
      by_cases hf : env.fails ((texts.drop i).take bs)
      · simp only [hf, if_pos rfl, if_true, List.length_append, List.length_cons,
          List.length_nil, ih (i + bs)]
        omega
      · simp only [hf, if_neg Bool.false_ne_true, if_false, List.length_append,
          List.length_nil, ih (i + bs)]
        omega
    · rw [embedLoop_stop env texts bs (fuel + 1) i hi]
      simp only [batchStarts, if_neg hi, List.filter_nil, List.length_nil]

theorem generate_embeddings_pos (env : EmbedEnv) (texts : List String) (batch_size : Int)
    (hbs : 0 < batch_size) :
    generate_embeddings env texts batch_size =
      .ok (embedLoop env texts batch_size.toNat texts.length 0) := by
  simp only [generate_embeddings]
  rw [if_neg (by omega), if_neg (by omega)]

/-! ### Claim C7 -/

/-- C7: with a positive batch size, `generate_embeddings` never aborts:
it returns one vector per text; position `j` receives the
768-dimensional zero placeholder exactly when the API call for the
batch containing `j` (the one starting at `(j / bs) * bs`) fails, and
otherwise receives that text's real embedding — so all batches other
than the failed ones are still processed; and the printed error log
holds exactly one event per failed batch. -/
theorem generate_embeddings_degradation (env : EmbedEnv) (texts : List String)
    (batch_size : Int) (hbs : 0 < batch_size) :
    ∃ out, generate_embeddings env texts batch_size = .ok out ∧
      out.1.length = texts.length ∧
      (∀ j, j < texts.length →
        out.1[j]? =
          if env.fails
              ((texts.drop (j / batch_size.toNat * batch_size.toNat)).take batch_size.toNat)
          then some (List.replicate 768 (0 : ℚ))
          else (texts[j]?).map env.embed) ∧
      out.2.length =
        ((batchStarts texts.length batch_size.toNat texts.length 0).filter
          (fun s => env.fails ((texts.drop s).take batch_size.toNat))).length := by
  have hbsN : 0 < batch_size.toNat := by omega
  refine ⟨_, generate_embeddings_pos env texts batch_size hbs, ?_, ?_, ?_⟩
  · rw [embedLoop_length env texts _ hbsN texts.length 0 (by omega)]
    omega
  · intro j hj
    rw [embedLoop_getElem env texts batch_size.toNat hbsN texts.length 0 j (by omega)
      (by omega)]
    simp only [Nat.zero_add]
  · exact embedLoop_logs env texts batch_size.toNat texts.length 0

/-- Witness for C7: three texts in batches of two, the second batch
(the one containing "bad") failing. -/
theorem generate_embeddings_degradation_witness :
    ∃ out, generate_embeddings ⟨fun s => [(s.length : ℚ)], fun b => b.contains "bad"⟩
        ["aa", "bbb", "bad"] 2 = .ok out ∧
      out.1.length = (["aa", "bbb", "bad"] : List String).length ∧
      (∀ j, j < (["aa", "bbb", "bad"] : List String).length →
        out.1[j]? =
          if (⟨fun s => [(s.length : ℚ)], fun b => b.contains "bad"⟩ : EmbedEnv).fails
              (((["aa", "bbb", "bad"] : List String).drop
                (j / (2 : Int).toNat * (2 : Int).toNat)).take (2 : Int).toNat)
          then some (List.replicate 768 (0 : ℚ))
          else ((["aa", "bbb", "bad"] : List String)[j]?).map
            (⟨fun s => [(s.length : ℚ)], fun b => b.contains "bad"⟩ : EmbedEnv).embed) ∧
      out.2.length =
        ((batchStarts (["aa", "bbb", "bad"] : List String).length (2 : Int).toNat
            (["aa", "bbb", "bad"] : List String).length 0).filter
          (fun s => (⟨fun s' => [(s'.length : ℚ)], fun b => b.contains "bad"⟩ : EmbedEnv).fails
            (((["aa", "bbb", "bad"] : List String).drop s).take (2 : Int).toNat))).length :=
  generate_embeddings_degradation ⟨fun s => [(s.length : ℚ)], fun b => b.contains "bad"⟩
    ["aa", "bbb", "bad"] 2 (by norm_num)

/-! ### Claim C8 -/

/-- C8: with a positive batch size, `generate_embeddings` returns
exactly one vector per input text in input order: the `j`-th output is
the embedding of the `j`-th text (or the per-batch failure placeholder),
and when no batch fails the result equals embedding the texts one by
one, independently of the batch split. -/
theorem generate_embeddings_order_preserving (env : EmbedEnv) (texts : List String)
    (batch_size : Int) (hbs : 0 < batch_size) :
    ∃ out, generate_embeddings env texts batch_size = .ok out ∧
      out.1.length = texts.length ∧
      (∀ j, j < texts.length →
        out.1[j]? = (texts[j]?).map env.embed ∨
        out.1[j]? = some (List.replicate 768 (0 : ℚ))) ∧
      ((∀ b, env.fails b = false) → out.1 = texts.map env.embed) := by
  have hbsN : 0 < batch_size.toNat := by omega
  refine ⟨_, generate_embeddings_pos env texts batch_size hbs, ?_, ?_, ?_⟩
  · rw [embedLoop_length env texts _ hbsN texts.length 0 (by omega)]
    omega
  · intro j hj
    rw [embedLoop_getElem env texts batch_size.toNat hbsN texts.length 0 j (by omega)
      (by omega)]
    simp only [Nat.zero_add]
    by_cases hf : env.fails ((texts.drop (j / batch_size.toNat * batch_size.toNat)).take
      batch_size.toNat)
    · right; rw [if_pos hf]
    · left; rw [if_neg hf]
  · intro hnf
    rw [embedLoop_noFail env texts batch_size.toNat hbsN hnf texts.length 0 (by omega),
      List.drop_zero]

/-- Witness for C8: three texts, batch size 2, no failures. -/
theorem generate_embeddings_order_preserving_witness :
    ∃ out, generate_embeddings ⟨fun s => [(s.length : ℚ)], fun _ => false⟩
        ["aa", "bbb", "c"] 2 = .ok out ∧
      out.1.length = (["aa", "bbb", "c"] : List String).length ∧
      (∀ j, j < (["aa", "bbb", "c"] : List String).length →
        out.1[j]? = ((["aa", "bbb", "c"] : List String)[j]?).map
          (⟨fun s => [(s.length : ℚ)], fun _ => false⟩ : EmbedEnv).embed ∨
        out.1[j]? = some (List.replicate 768 (0 : ℚ))) ∧
      ((∀ b, (⟨fun s => [(s.length : ℚ)], fun _ => false⟩ : EmbedEnv).fails b = false) →
        out.1 = (["aa", "bbb", "c"] : List String).map
          (⟨fun s => [(s.length : ℚ)], fun _ => false⟩ : EmbedEnv).embed) :=
  generate_embeddings_order_preserving ⟨fun s => [(s.length : ℚ)], fun _ => false⟩
    ["aa", "bbb", "c"] 2 (by norm_num)

/-! ## Collection configuration: `qdrant_config.get_collection_configs` -/

/-- Qdrant distance metrics (`models.Distance`). -/
inductive Distance where
  | cosine | euclid | dot | manhattan
  deriving DecidableEq, Repr

/-- Qdrant payload schema types (`models.PayloadSchemaType`), restricted
to the ones the configuration uses. -/
inductive PayloadSchemaType where
  | keyword | integer | datetime
  deriving DecidableEq, Repr

/-- Qdrant `models.VectorParams`. -/
structure VectorParams where
  size : Nat
  distance : Distance
  deriving DecidableEq, Repr

/-- One entry of the configuration dictionary. -/
structure CollectionConfig where
  vectors_config : VectorParams
  payload_schema : List (String × PayloadSchemaType)
  deriving DecidableEq, Repr

/-- `get_collection_configs` from `qdrant_config.py`: both collections
are created with 1536-dimensional vectors under cosine distance. -/
def get_collection_configs : List (String × CollectionConfig) :=
  [("cv_embeddings",
    { vectors_config := { size := 1536, distance := .cosine }
      payload_schema :=
        [("user_id", .keyword), ("cv_id", .keyword), ("version", .integer),
         ("created_at", .datetime)] }),
   ("job_embeddings",
    { vectors_config := { size := 1536, distance := .cosine }
      payload_schema :=
        [("job_id", .keyword), ("source_id", .keyword), ("created_at", .datetime),
         ("is_active", .integer)] })]

/-! ### Claim C10 -/

/-- C10: whenever a batch fails during `generate_embeddings`, each text
of that batch receives a zero vector of dimension exactly 768 —
hardcoded, for every embedding environment (i.e. independent of the
configured model) — while both collections of `get_collection_configs`
(`cv_embeddings` and `job_embeddings`) are configured with vector
dimension 1536 and cosine distance; hence the placeholder's dimension
never matches either collection's configured dimension, and upserting
it into those collections is a dimension mismatch. -/
theorem placeholder_dimension_mismatch (env : EmbedEnv) (texts : List String)
    (batch_size : Int) (j : Nat) (hbs : 0 < batch_size) (hj : j < texts.length)
    (hfail : env.fails
      ((texts.drop (j / batch_size.toNat * batch_size.toNat)).take batch_size.toNat) = true) :
    ∃ out, generate_embeddings env texts batch_size = .ok out ∧
      out.1[j]? = some (List.replicate 768 (0 : ℚ)) ∧
      (List.replicate 768 (0 : ℚ)).length = 768 ∧
      ∀ nc ∈ get_collection_configs,
        nc.2.vectors_config.size = 1536 ∧ nc.2.vectors_config.distance = .cosine ∧
        (List.replicate 768 (0 : ℚ)).length ≠ nc.2.vectors_config.size := by
  have hbsN : 0 < batch_size.toNat := by omega
  refine ⟨_, generate_embeddings_pos env texts batch_size hbs, ?_, ?_, ?_⟩
  · rw [embedLoop_getElem env texts batch_size.toNat hbsN texts.length 0 j (by omega)
      (by omega)]
    simp only [Nat.zero_add]
    rw [if_pos hfail]
  · exact List.length_replicate 768 (0 : ℚ)
  · intro nc hnc
    rw [List.length_replicate]
    rcases List.mem_cons.mp hnc with h | h
    · subst h
      refine ⟨rfl, rfl, by norm_num⟩
    · rcases List.mem_singleton.mp h with rfl
      refine ⟨rfl, rfl, by norm_num⟩

/-- Witness for C10: two texts, batch size 2, the single batch failing. -/
theorem placeholder_dimension_mismatch_witness :
    ∃ out, generate_embeddings ⟨fun _ => [1, 2], fun _ => true⟩ ["a", "b"] 2 = .ok out ∧
      out.1[0]? = some (List.replicate 768 (0 : ℚ)) ∧
      (List.replicate 768 (0 : ℚ)).length = 768 ∧
      ∀ nc ∈ get_collection_configs,
        nc.2.vectors_config.size = 1536 ∧ nc.2.vectors_config.distance = .cosine ∧
        (List.replicate 768 (0 : ℚ)).length ≠ nc.2.vectors_config.size :=
  placeholder_dimension_mismatch ⟨fun _ => [1, 2], fun _ => true⟩ ["a", "b"] 2 0
    (by norm_num) (by norm_num) rfl

/-! ## Vector store: `QdrantStorage.store_embeddings` and
`QdrantStorage.delete_document`

Payloads are schema-less Python dicts; they are modelled as functions
from keys to optional values, with dict update (later value wins) and
single-key assignment as operations. The external Qdrant client is an
environment: a per-batch upsert failure predicate with its exception
messages, and — for deletes — an explicit store state. -/

/-- A payload value. -/
inductive PValue where
  | str (s : String)
  | int (n : Int)
  deriving DecidableEq, Repr

/-- A chunk dictionary as consumed by `store_embeddings`: the fields it
reads, each optional because Python looks them up with `in` / `.get`. -/
structure ChunkIn where
  embedding : Option (List ℚ)
  text : Option String
  num_tokens : Option Nat
  deriving Repr

/-- A Qdrant `PointStruct`. -/
structure Point where
  id : String
  vector : List ℚ
  payload : String → Option PValue

/-- Python dict update `d.update(m)`: keys of `m` win. -/
def dictUpdate (d m : String → Option PValue) : String → Option PValue :=
  fun k => (m k).orElse (fun _ => d k)

/-- Python dict assignment `d[key] = v`. -/
def dictSet (d : String → Option PValue) (key : String) (v : PValue) :
    String → Option PValue :=
  fun k => if k = key then some v else d k

/-- The fixed payload fields built for chunk index `i`:
`document_id`, `text`, `chunk_index`, `num_tokens`, `created_at`
(`now` stands for the `datetime.utcnow().isoformat()` timestamp). -/
def basePayload (now docId : String) (i : Nat) (c : ChunkIn) : String → Option PValue :=
  fun k =>
    if k = "document_id" then some (.str docId)
    else if k = "text" then some (.str (c.text.getD ""))
    else if k = "chunk_index" then some (.int i)
    else if k = "num_tokens" then some (.int (c.num_tokens.getD 0))
    else if k = "created_at" then some (.str now)
    else none

/-- The payload of one stored point: the fixed fields, then
`payload.update(metadata)` if metadata was passed, then
`payload["user_id"] = user_id` if `user_id` is truthy (non-empty). -/
def mkPayload (now docId : String) (i : Nat) (c : ChunkIn)
    (metadata : Option (String → Option PValue)) (user_id : Option String) :
    String → Option PValue :=
  let p := basePayload now docId i c
  let p1 := match metadata with
    | some m => dictUpdate p m
    | none => p
  match user_id with
  | some u => if u ≠ "" then dictSet p1 "user_id" (.str u) else p1
  | none => p1

/-- The point-building loop of `store_embeddings`: enumerate the chunks
(index `i`), skip chunks without an `embedding` key, and give each kept
chunk a fresh id (`genId` models `uuid.uuid4()`, applied to the running
count `nid` of generated ids). Returns `(points, stored_ids)`. -/
def buildPoints (genId : Nat → String) (now docId : String)
    (metadata : Option (String → Option PValue)) (user_id : Option String) :
    List ChunkIn → Nat → Nat → List Point × List String
  | [], _, _ => ([], [])
  | c :: rest, i, nid =>
    match c.embedding with
    | none => buildPoints genId now docId metadata user_id rest (i + 1) nid
    | some v =>
      let pid := genId nid
      let p : Point := { id := pid, vector := v
                         payload := mkPayload now docId i c metadata user_id }
      let r := buildPoints genId now docId metadata user_id rest (i + 1) (nid + 1)
      (p :: r.1, pid :: r.2)

/-- Model of the external Qdrant client's upsert behaviour: whether the
(awaited) upsert call for batch number `k` raises, and with which
exception message. -/
structure QClient where
  upsertFails : Nat → Bool
  upsertErr : Nat → String

/-- The upsert loop `for i in range(0, len(points), batch_size)` with
`wait=True`: each batch is written and acknowledged before the next
starts; a raised exception propagates, so no later batch is attempted.
The second component is the list of points actually written (a failed
batch writes nothing — `wait=True` acknowledges whole batches). `fuel`
is a structural-termination counter; `store_embeddings` passes
`fuel = len(points)`, sufficient because `i` advances by `bs ≥ 1`. -/
def upsertLoop (client : QClient) (points : List Point) (bs : Nat) :
    Nat → Nat → Except String Unit × List Point
  | 0, _ => (.ok (), [])
  | fuel + 1, i =>
    if i < points.length then
      if client.upsertFails (i / bs) then (.error (client.upsertErr (i / bs)), [])
      else
        let batch := (points.drop i).take bs
        let rest := upsertLoop client points bs fuel (i + bs)
        (rest.1, batch ++ rest.2)
    else (.ok (), [])

/-- `QdrantStorage.store_embeddings`. Returns the call's outcome
(`stored_ids` on success, the propagated exception otherwise) paired
with the list of points written to the external index. An empty chunk
list returns `[]` immediately; Python's `range` raises `ValueError` on
a zero step and yields nothing on a negative one. -/
def store_embeddings (client : QClient) (genId : Nat → String) (now : String)
    (document_id : String) (chunks : List ChunkIn)
    (metadata : Option (String → Option PValue)) (user_id : Option String)
    (batch_size : Int) : Except String (List String) × List Point :=
  if chunks.isEmpty then (.ok [], [])
  else
    let pi := buildPoints genId now document_id metadata user_id chunks 0 0
    if batch_size = 0 then (.error "range() arg 3 must not be zero", [])
    else if batch_size < 0 then (.ok pi.2, [])
    else
      let r := upsertLoop client pi.1 batch_size.toNat pi.1.length 0
      match r.1 with
      | .ok _ => (.ok pi.2, r.2)
      | .error e => (.error e, r.2)

-- Sanity: one chunk with a vector and one without; metadata overrides document_id.
example :
    ((store_embeddings ⟨fun _ => false, fun _ => "e"⟩ (fun n => toString n) "now" "doc1"
        [⟨some [1], some "hello", some 5⟩, ⟨none, some "skipped", none⟩]
        (some (fun k => if k = "document_id" then some (.str "evil") else none))
        none 32).2.map (fun p => (p.payload "document_id", p.payload "text"))) =
      [(some (.str "evil"), some (.str "hello"))] := rfl

example :
    (store_embeddings ⟨fun _ => false, fun _ => "e"⟩ (fun n => toString n) "now" "doc1"
        [⟨some [1], some "a", some 1⟩, ⟨some [2], some "b", some 1⟩]
        none none 32).1 = .ok ["0", "1"] := rfl

theorem upsertLoop_stop (client : QClient) (points : List Point) (bs fuel i : Nat)
    (h : ¬ i < points.length) : upsertLoop client points bs fuel i = (.ok (), []) := by
  cases fuel with
  | zero => rfl
  | succ fuel => simp [upsertLoop, h]

theorem upsertLoop_fail (client : QClient) (points : List Point) (bs fuel i : Nat)
    (h1 : i < points.length) (hf : client.upsertFails (i / bs) = true) :
    upsertLoop client points bs (fuel + 1) i =
      (.error (client.upsertErr (i / bs)), []) := by
  simp [upsertLoop, h1, hf]

theorem upsertLoop_ok_step (client : QClient) (points : List Point) (bs fuel i : Nat)
    (h1 : i < points.length) (hf : client.upsertFails (i / bs) = false) :
    upsertLoop client points bs (fuel + 1) i =
      (let rest := upsertLoop client points bs fuel (i + bs)
       (rest.1, (points.drop i).take bs ++ rest.2)) := by
  simp [upsertLoop, h1, hf]

/-- When no upsert call fails, every batch is written in order and the
loop succeeds having written all remaining points. -/
theorem upsertLoop_noFail (client : QClient) (points : List Point) (bs : Nat)
    (hbs : 0 < bs) (hnf : ∀ n, client.upsertFails n = false) :
    ∀ fuel i, points.length - i ≤ fuel →
      upsertLoop client points bs fuel i = (.ok (), points.drop i) := by
  intro fuel
  induction fuel with
  | zero =>
    intro i hfuel
    rw [upsertLoop_stop client points bs 0 i (by omega),
      List.drop_eq_nil_of_le (by omega)]
  | succ fuel ih =>
    intro i hfuel
    by_cases hi : i < points.length
    · rw [upsertLoop_ok_step client points bs fuel i hi (hnf (i / bs))]
      simp only
      rw [ih (i + bs) (by omega)]
      have hdd : points.drop (i + bs) = (points.drop i).drop bs := (List.drop_drop bs i points).symm
      rw [hdd, List.take_append_drop]
    · rw [upsertLoop_stop client points bs (fuel + 1) i hi,
        List.drop_eq_nil_of_le (by omega)]

/-- If batch `k` is the first failing batch (and starts inside the point
list), the loop raises that batch's client exception and the points
written are exactly the `bs * k` points of the batches before `k`:
stated for any start position `bs * t` with `t ≤ k`. -/
theorem upsertLoop_firstFail (client : QClient) (points : List Point) (bs : Nat)
    (hbs : 0 < bs) (k : Nat) (hfail : client.upsertFails k = true)
    (hbefore : ∀ j, j < k → client.upsertFails j = false)
    (hk : bs * k < points.length) :
    ∀ fuel t, points.length - bs * t ≤ fuel → t ≤ k →
      upsertLoop client points bs fuel (bs * t) =
        (.error (client.upsertErr k), (points.drop (bs * t)).take (bs * (k - t))) := by
  intro fuel
  induction fuel with
  | zero =>
    intro t hfuel ht
    have hmono : bs * t ≤ bs * k := Nat.mul_le_mul_left bs ht
    omega
  | succ fuel ih =>
    intro t hfuel ht
    have hmono : bs * t ≤ bs * k := Nat.mul_le_mul_left bs ht
    have hi : bs * t < points.length := by omega
    have hdivt : bs * t / bs = t := Nat.mul_div_cancel_left t hbs
    rcases Nat.eq_or_lt_of_le ht with rfl | hlt
    · have hf : client.upsertFails (bs * t / bs) = true := by rw [hdivt]; exact hfail
      rw [upsertLoop_fail client points bs fuel _ hi hf, hdivt, Nat.sub_self, Nat.mul_zero,
        List.take_zero]
    · have hf : client.upsertFails (bs * t / bs) = false := by rw [hdivt]; exact hbefore t hlt
      rw [upsertLoop_ok_step client points bs fuel _ hi hf]
      simp only
      have hsucc : bs * t + bs = bs * (t + 1) := (Nat.mul_succ bs t).symm
      rw [hsucc, ih (t + 1) (by omega) hlt]
      simp only
      have hdd : points.drop (bs * (t + 1)) = (points.drop (bs * t)).drop bs := by
        rw [List.drop_drop, hsucc]
      rw [hdd, ← List.take_add]
      have hcount : bs + bs * (k - (t + 1)) = bs * (k - t) := by
        have h1 : bs * (k - t) = bs * (k - (t + 1)) + bs := by
          rw [← Nat.mul_succ]
          congr 1
          omega
        omega
      rw [hcount]

/-- Every built point comes from a chunk that has an embedding, carries
that embedding as its vector, and carries the payload built by
`mkPayload` at that chunk's enumeration index. -/
theorem buildPoints_mem (genId : Nat → String) (now docId : String)
    (metadata : Option (String → Option PValue)) (user_id : Option String) :
    ∀ chunks i nid p, p ∈ (buildPoints genId now docId metadata user_id chunks i nid).1 →
      ∃ j c, chunks[j]? = some c ∧ c.embedding = some p.vector ∧
        p.payload = mkPayload now docId (i + j) c metadata user_id := by
  intro chunks
  induction chunks with
  | nil => intro i nid p hp; simp [buildPoints] at hp
  | cons c rest ih =>
    intro i nid p hp
    cases hemb : c.embedding with
    | none =>
      simp only [buildPoints, hemb] at hp
      obtain ⟨j, c', hj, hv, hpay⟩ := ih (i + 1) nid p hp
      refine ⟨j + 1, c', by simpa using hj, hv, ?_⟩
      rw [hpay, show i + 1 + j = i + (j + 1) from by omega]
    | some v =>
      simp only [buildPoints, hemb] at hp
      rcases List.mem_cons.mp hp with rfl | hp'
      · exact ⟨0, c, by simp, hemb, by simp⟩
      · obtain ⟨j, c', hj, hv, hpay⟩ := ih (i + 1) (nid + 1) p hp'
        refine ⟨j + 1, c', by simpa using hj, hv, ?_⟩
        rw [hpay, show i + 1 + j = i + (j + 1) from by omega]

/-- Dict update makes a metadata key win over every fixed field,
including the reserved ones, as long as it is not later overwritten by
a non-empty `user_id` argument. -/
theorem mkPayload_metadata_wins (now docId : String) (i : Nat) (c : ChunkIn)
    (m : String → Option PValue) (user_id : Option String) (k : String) (v : PValue)
    (hm : m k = some v) (hu : ∀ u, user_id = some u → u ≠ "" → k ≠ "user_id") :
    mkPayload now docId i c (some m) user_id k = some v := by
  simp only [mkPayload]
  cases user_id with
  | none => simp [dictUpdate, hm]
  | some u =>
    by_cases hue : u = ""
    · subst hue
      simp [dictUpdate, hm]
    · have hk : ¬ k = "user_id" := hu u rfl hue
      simp [dictSet, dictUpdate, hue, hk, hm]

/-- A key the metadata does not define keeps its fixed-field value
(unless it is the `user_id` key being set from a non-empty argument). -/
theorem mkPayload_metadata_missing (now docId : String) (i : Nat) (c : ChunkIn)
    (m : String → Option PValue) (user_id : Option String) (k : String)
    (hm : m k = none) (hu : ∀ u, user_id = some u → u ≠ "" → k ≠ "user_id") :
    mkPayload now docId i c (some m) user_id k = basePayload now docId i c k := by
  simp only [mkPayload]
  cases user_id with
  | none => simp [dictUpdate, hm]
  | some u =>
    by_cases hue : u = ""
    · subst hue
      simp [dictUpdate, hm]
    · have hk : ¬ k = "user_id" := hu u rfl hue
      simp [dictSet, dictUpdate, hue, hk, hm]

/-- A non-empty `user_id` argument is written last and wins for the
`user_id` key. -/
theorem mkPayload_user_id (now docId : String) (i : Nat) (c : ChunkIn)
    (metadata : Option (String → Option PValue)) (u : String) (hu : ¬ u = "") :
    mkPayload now docId i c metadata (some u) "user_id" = some (.str u) := by
  simp [mkPayload, dictSet, hu]

/-- On a non-empty chunk list and positive batch size, `store_embeddings`
builds the points and runs the batched upsert loop. -/
theorem store_embeddings_run (client : QClient) (genId : Nat → String) (now : String)
    (document_id : String) (chunks : List ChunkIn)
    (metadata : Option (String → Option PValue)) (user_id : Option String)
    (batch_size : Int) (hne : chunks ≠ []) (hbs : 0 < batch_size) :
    store_embeddings client genId now document_id chunks metadata user_id batch_size =
      ((match (upsertLoop client (buildPoints genId now document_id metadata user_id chunks 0 0).1
          batch_size.toNat
          (buildPoints genId now document_id metadata user_id chunks 0 0).1.length 0).1 with
        | .ok _ => Except.ok (buildPoints genId now document_id metadata user_id chunks 0 0).2
        | .error e => Except.error e),
       (upsertLoop client (buildPoints genId now document_id metadata user_id chunks 0 0).1
          batch_size.toNat
          (buildPoints genId now document_id metadata user_id chunks 0 0).1.length 0).2) := by
  have hemp : ¬ chunks.isEmpty = true := by
    cases chunks with
    | nil => exact absurd rfl hne
    | cons c rest => simp [List.isEmpty]
  simp only [store_embeddings]
  rw [if_neg hemp, if_neg (by omega), if_neg (by omega)]
  cases (upsertLoop client (buildPoints genId now document_id metadata user_id chunks 0 0).1
    batch_size.toNat
    (buildPoints genId now document_id metadata user_id chunks 0 0).1.length 0).1 <;> rfl

theorem store_embeddings_points (client : QClient) (genId : Nat → String) (now : String)
    (document_id : String) (chunks : List ChunkIn)
    (metadata : Option (String → Option PValue)) (user_id : Option String)
    (batch_size : Int) (hne : chunks ≠ []) (hbs : 0 < batch_size) :
    (store_embeddings client genId now document_id chunks metadata user_id batch_size).2 =
      (upsertLoop client (buildPoints genId now document_id metadata user_id chunks 0 0).1
        batch_size.toNat
        (buildPoints genId now document_id metadata user_id chunks 0 0).1.length 0).2 := by
  rw [store_embeddings_run client genId now document_id chunks metadata user_id batch_size
    hne hbs]

/-! ### Claim C2 -/

/-- C2 counterexample: a caller-supplied `metadata` entry for
`document_id` overrides the fixed field in the stored payload (the
point is stored with `document_id = "evil"`, not the `"doc1"` the call
passed), because the code merges with a plain `payload.update(metadata)`
— so the reserved keys `document_id` / `text` / `chunk_index` do NOT
always win, contrary to the claim. -/
theorem store_metadata_overrides_reserved_counterexample :
    ((store_embeddings ⟨fun _ => false, fun _ => "e"⟩ (fun n => toString n) "now" "doc1"
        [⟨some [1], some "hello", some 5⟩]
        (some (fun k => if k = "document_id" then some (.str "evil") else none))
        none 32).2.map (fun p => p.payload "document_id")) = [some (.str "evil")] := rfl

/-- C2 amended: in every stored point's payload, a caller-supplied
metadata key wins over EVERY fixed field — including `document_id`,
`text` and `chunk_index` (plain dict-update semantics); fixed fields
survive only for keys the metadata does not define; and a non-empty
`user_id` argument, written after the merge, wins for the `user_id`
key. Stated for a client whose upserts succeed, so all built points are
stored. -/
theorem store_metadata_precedence (client : QClient) (genId : Nat → String)
    (now document_id : String) (chunks : List ChunkIn) (m : String → Option PValue)
    (user_id : Option String) (batch_size : Int) (hbs : 0 < batch_size)
    (hnf : ∀ n, client.upsertFails n = false) :
    ∀ p ∈ (store_embeddings client genId now document_id chunks (some m) user_id
        batch_size).2,
      (∀ k v, m k = some v → (∀ u, user_id = some u → u ≠ "" → k ≠ "user_id") →
        p.payload k = some v) ∧
      (∀ k, m k = none → (∀ u, user_id = some u → u ≠ "" → k ≠ "user_id") →
        ∃ j c, chunks[j]? = some c ∧ p.payload k = basePayload now document_id j c k) ∧
      (∀ u, user_id = some u → u ≠ "" → p.payload "user_id" = some (.str u)) := by
  intro p hp
  by_cases hne : chunks = []
  · subst hne
    exact absurd hp (List.not_mem_nil p)
  · rw [store_embeddings_points client genId now document_id chunks (some m) user_id
      batch_size hne hbs,
      upsertLoop_noFail client _ batch_size.toNat (by omega) hnf _ 0 (by omega),
      List.drop_zero] at hp
    obtain ⟨j, c, hj, hv, hpay⟩ := buildPoints_mem genId now document_id (some m) user_id
      chunks 0 0 p hp
    rw [Nat.zero_add] at hpay
    refine ⟨?_, ?_, ?_⟩
    · intro k v hm hu
      rw [hpay]
      exact mkPayload_metadata_wins now document_id j c m user_id k v hm hu
    · intro k hm hu
      refine ⟨j, c, hj, ?_⟩
      rw [hpay]
      exact mkPayload_metadata_missing now document_id j c m user_id k hm hu
    · intro u huid hune
      rw [hpay, huid]
      exact mkPayload_user_id now document_id j c (some m) u hune

/-- Witness for the amended C2 at a concrete call. -/
theorem store_metadata_precedence_witness :
    ∃ ps, (store_embeddings ⟨fun _ => false, fun _ => "e"⟩ (fun n => toString n) "now" "doc1"
        [⟨some [1], some "hello", some 5⟩]
        (some (fun k => if k = "document_id" then some (.str "evil") else none))
        none 32).2 = ps ∧
      ∀ p ∈ ps,
        (∀ k v, (fun k => if k = "document_id" then some (.str "evil") else none : String →
            Option PValue) k = some v →
          (∀ u, (none : Option String) = some u → u ≠ "" → k ≠ "user_id") →
          p.payload k = some v) ∧
        (∀ k, (fun k => if k = "document_id" then some (.str "evil") else none : String →
            Option PValue) k = none →
          (∀ u, (none : Option String) = some u → u ≠ "" → k ≠ "user_id") →
          ∃ j c, ([⟨some [1], some "hello", some 5⟩] : List ChunkIn)[j]? = some c ∧
            p.payload k = basePayload "now" "doc1" j c k) ∧
        (∀ u, (none : Option String) = some u → u ≠ "" →
          p.payload "user_id" = some (.str u)) :=
  ⟨_, rfl,
   store_metadata_precedence ⟨fun _ => false, fun _ => "e"⟩ (fun n => toString n) "now" "doc1"
     [⟨some [1], some "hello", some 5⟩]
     (fun k => if k = "document_id" then some (.str "evil") else none)
     none 32 (by norm_num) (fun _ => rfl)⟩

/-! ### Claim C9 -/

/-- C9 counterexample: the error value reported to the caller does not
state how many points from earlier batches succeeded. The same client
exception "boom" (raised for every batch from the second one on) is
what the caller gets both in a run where 1 point had been written
(2 points, batch size 1) and in a run where 2 points had been written
(4 points, batch size 2): the reported error carries no success count. -/
theorem store_error_reports_no_count_counterexample :
    (store_embeddings ⟨fun n => decide (1 ≤ n), fun _ => "boom"⟩ (fun n => toString n) "now"
        "d" [⟨some [1], some "a", some 1⟩, ⟨some [2], some "b", some 1⟩] none none 1).1 =
      .error "boom" ∧
    ((store_embeddings ⟨fun n => decide (1 ≤ n), fun _ => "boom"⟩ (fun n => toString n) "now"
        "d" [⟨some [1], some "a", some 1⟩, ⟨some [2], some "b", some 1⟩] none none
        1).2).length = 1 ∧
    (store_embeddings ⟨fun n => decide (1 ≤ n), fun _ => "boom"⟩ (fun n => toString n) "now"
        "d" [⟨some [1], some "a", some 1⟩, ⟨some [2], some "b", some 1⟩,
          ⟨some [3], some "c", some 1⟩, ⟨some [4], some "dd", some 1⟩] none none 2).1 =
      .error "boom" ∧
    ((store_embeddings ⟨fun n => decide (1 ≤ n), fun _ => "boom"⟩ (fun n => toString n) "now"
        "d" [⟨some [1], some "a", some 1⟩, ⟨some [2], some "b", some 1⟩,
          ⟨some [3], some "c", some 1⟩, ⟨some [4], some "dd", some 1⟩] none none
        2).2).length = 2 :=
  ⟨rfl, rfl, rfl, rfl⟩

/-- C9 amended: points are written to the index in batches in order,
each awaited before the next begins. When no batch fails, all points
are written and the point ids are returned. When batch `k` is the first
to fail, the points actually written are exactly the `batch_size * k`
points of the batches before `k`, no later batch is attempted, and the
call reports the client's raw exception for batch `k` — which does not
carry the count of previously written points. -/
theorem store_batch_failure_stops (client : QClient) (genId : Nat → String)
    (now document_id : String) (chunks : List ChunkIn)
    (metadata : Option (String → Option PValue)) (user_id : Option String)
    (batch_size : Int) (hbs : 0 < batch_size) :
    ((∀ n, client.upsertFails n = false) →
      store_embeddings client genId now document_id chunks metadata user_id batch_size =
        (.ok (buildPoints genId now document_id metadata user_id chunks 0 0).2,
         (buildPoints genId now document_id metadata user_id chunks 0 0).1)) ∧
    (∀ k, client.upsertFails k = true → (∀ j, j < k → client.upsertFails j = false) →
      batch_size.toNat * k <
        (buildPoints genId now document_id metadata user_id chunks 0 0).1.length →
      store_embeddings client genId now document_id chunks metadata user_id batch_size =
        (.error (client.upsertErr k),
         (buildPoints genId now document_id metadata user_id chunks 0 0).1.take
           (batch_size.toNat * k))) := by
  constructor
  · intro hnf
    by_cases hne : chunks = []
    · subst hne
      rfl
    · rw [store_embeddings_run client genId now document_id chunks metadata user_id
        batch_size hne hbs,
        upsertLoop_noFail client _ batch_size.toNat (by omega) hnf _ 0 (by omega)]
      rw [List.drop_zero]
  · intro k hfk hbefore hk
    have hne : chunks ≠ [] := by
      intro h
      subst h
      exact absurd hk (by simp [buildPoints])
    rw [store_embeddings_run client genId now document_id chunks metadata user_id
      batch_size hne hbs]
    have hff := upsertLoop_firstFail client
      (buildPoints genId now document_id metadata user_id chunks 0 0).1 batch_size.toNat
      (by omega) k hfk hbefore hk
      (buildPoints genId now document_id metadata user_id chunks 0 0).1.length 0
      (by omega) (Nat.zero_le k)
    rw [Nat.mul_zero, Nat.sub_zero, List.drop_zero] at hff
    rw [hff]

/-- Witness for the amended C9: two points in batches of one, the
second upsert failing — one point written, raw error reported. -/
theorem store_batch_failure_stops_witness :
    store_embeddings ⟨fun n => decide (1 ≤ n), fun _ => "boom"⟩ (fun n => toString n) "now"
        "d" [⟨some [1], some "a", some 1⟩, ⟨some [2], some "b", some 1⟩] none none 1 =
      (.error ((⟨fun n => decide (1 ≤ n), fun _ => "boom"⟩ : QClient).upsertErr 1),
       (buildPoints (fun n => toString n) "now" "d" none none
         [⟨some [1], some "a", some 1⟩, ⟨some [2], some "b", some 1⟩] 0 0).1.take
         ((1 : Int).toNat * 1)) :=
  (store_batch_failure_stops ⟨fun n => decide (1 ≤ n), fun _ => "boom"⟩
    (fun n => toString n) "now" "d"
    [⟨some [1], some "a", some 1⟩, ⟨some [2], some "b", some 1⟩] none none 1
    (by norm_num)).2 1 rfl
    (by
      intro j hj
      cases j with
      | zero => rfl
      | succ n => omega)
    (by decide)

/-! ## Vector store: `QdrantStorage.delete_document` -/

/-- Qdrant `UpdateResult`: the acknowledgement of one update operation.
Its `operation_id` is the sequence number the index assigns to the
operation — it is not a count of affected points. -/
structure UpdateResult where
  operation_id : Nat
  deriving DecidableEq, Repr

/-- The state of the external collection: its stored points and the
sequence number the next update operation will receive. -/
structure StoreState where
  points : List Point
  nextOpId : Nat

/-- Model of `client.delete` with a `Filter` of one `FieldCondition`
matching payload `document_id` exactly: every matching point is
removed, and the returned `UpdateResult` carries the operation's
sequence number. -/
def clientDelete (st : StoreState) (docId : String) : StoreState × UpdateResult :=
  ({ points := st.points.filter
       (fun p => ! decide (p.payload "document_id" = some (.str docId)))
     nextOpId := st.nextOpId + 1 },
   { operation_id := st.nextOpId })

/-- `QdrantStorage.delete_document`: deletes by `document_id` filter and
returns `result.operation_id` (the attribute exists on `UpdateResult`,
so the `hasattr` guard takes the first branch). -/
def delete_document (st : StoreState) (document_id : String) : StoreState × Nat :=
  let r := clientDelete st document_id
  (r.1, r.2.operation_id)

/-! ### Claim C4 -/

/-- C4 counterexample: on a fresh collection (next operation id 0)
holding exactly two points whose payload `document_id` is `"d"`,
`delete_document "d"` returns 0 — the operation's sequence number —
although two matching points were removed; and the repeated
`delete_document "d"` returns 1, not the claimed count 0. The return
value is `operation_id`, not the number of removed points. -/
theorem delete_document_opid_counterexample :
    (delete_document
      ⟨[⟨"p0", [1], fun k => if k = "document_id" then some (.str "d") else none⟩,
        ⟨"p1", [2], fun k => if k = "document_id" then some (.str "d") else none⟩], 0⟩
      "d").2 = 0 ∧
    ((⟨[⟨"p0", [1], fun k => if k = "document_id" then some (.str "d") else none⟩,
        ⟨"p1", [2], fun k => if k = "document_id" then some (.str "d") else none⟩], 0⟩ :
        StoreState).points.filter
      (fun p => decide (p.payload "document_id" = some (.str "d")))).length = 2 ∧
    (delete_document (delete_document
      ⟨[⟨"p0", [1], fun k => if k = "document_id" then some (.str "d") else none⟩,
        ⟨"p1", [2], fun k => if k = "document_id" then some (.str "d") else none⟩], 0⟩
      "d").1 "d").2 = 1 :=
  ⟨rfl, rfl, rfl⟩

/-- C4 amended: `delete_document d` removes exactly the points whose
payload `document_id` equals `d` (afterwards none remain), never raises
for an absent id, and deleting again removes nothing — but its return
value is the client's operation sequence number (here `nextOpId`, then
`nextOpId + 1` for the repeat), not the count of removed points. -/
theorem delete_document_behavior (st : StoreState) (d : String) :
    (delete_document st d).1.points =
      st.points.filter (fun p => ! decide (p.payload "document_id" = some (.str d))) ∧
    (∀ p ∈ (delete_document st d).1.points,
      ¬ p.payload "document_id" = some (.str d)) ∧
    (delete_document st d).2 = st.nextOpId ∧
    (delete_document (delete_document st d).1 d).1.points =
      (delete_document st d).1.points ∧
    (delete_document (delete_document st d).1 d).2 = st.nextOpId + 1 := by
  refine ⟨rfl, ?_, rfl, ?_, rfl⟩
  · intro p hp
    have h := (List.mem_filter.mp hp).2
    simpa using h
  · show (st.points.filter
        (fun p => ! decide (p.payload "document_id" = some (.str d)))).filter
        (fun p => ! decide (p.payload "document_id" = some (.str d))) =
      st.points.filter (fun p => ! decide (p.payload "document_id" = some (.str d)))
    rw [List.filter_filter]
    simp only [Bool.and_self]

/-- Witness for the amended C4 at a concrete two-point state. -/
theorem delete_document_behavior_witness :
    (delete_document
      ⟨[⟨"p0", [1], fun k => if k = "document_id" then some (.str "d") else none⟩], 7⟩
      "d").1.points =
      ((⟨[⟨"p0", [1], fun k => if k = "document_id" then some (.str "d") else none⟩], 7⟩ :
        StoreState).points.filter
        (fun p => ! decide (p.payload "document_id" = some (.str "d")))) ∧
    (∀ p ∈ (delete_document
        ⟨[⟨"p0", [1], fun k => if k = "document_id" then some (.str "d") else none⟩], 7⟩
        "d").1.points, ¬ p.payload "document_id" = some (.str "d")) ∧
    (delete_document
      ⟨[⟨"p0", [1], fun k => if k = "document_id" then some (.str "d") else none⟩], 7⟩
      "d").2 = 7 ∧
    (delete_document (delete_document
      ⟨[⟨"p0", [1], fun k => if k = "document_id" then some (.str "d") else none⟩], 7⟩
      "d").1 "d").1.points =
      (delete_document
        ⟨[⟨"p0", [1], fun k => if k = "document_id" then some (.str "d") else none⟩], 7⟩
        "d").1.points ∧
    (delete_document (delete_document
      ⟨[⟨"p0", [1], fun k => if k = "document_id" then some (.str "d") else none⟩], 7⟩
      "d").1 "d").2 = 7 + 1 :=
  delete_document_behavior
    ⟨[⟨"p0", [1], fun k => if k = "document_id" then some (.str "d") else none⟩], 7⟩ "d"

/-! ## Retrieval: `test_semantic_matching.find_similar_jobs`

`get_cv_embedding` wraps the external single-text embedding call in a
`try/except` that logs and returns `None` on any failure; its
environment is therefore an optional-vector oracle. The Qdrant search
over `job_embeddings` is a second environment; it may itself raise. -/

/-- Model of `genai.embed_content` for a single query text:
`none` models the exception path of `get_cv_embedding`. -/
structure GenAIEnv where
  queryEmbed : String → Option (List ℚ)

/-- A Qdrant search hit. -/
structure Hit where
  id : String
  score : ℚ
  payload : String → Option PValue

/-- Model of `client.search` on the `job_embeddings` collection (with
`score_threshold=0.5`, `with_payload=True` fixed in the code). -/
structure SearchEnv where
  search : List ℚ → Nat → Except String (List Hit)

/-- `get_cv_embedding`: the embedding, or `None` after the logged
exception. -/
def get_cv_embedding (genv : GenAIEnv) (text : String) : Option (List ℚ) :=
  genv.queryEmbed text

/-- `hit.payload.get('text', '')` restricted to string values. -/
def payloadText (p : String → Option PValue) : String :=
  match p "text" with
  | some (.str s) => s
  | _ => ""

/-- One formatted result row of `find_similar_jobs`. -/
structure JobMatch where
  job_id : String
  score : ℚ
  title : String
  description : String
  metadata : String → Option PValue

/-- `find_similar_jobs`: embed the CV text; if the embedding is falsy
(`None` or an empty vector) log and return the empty list; otherwise
search `job_embeddings` and format the hits. -/
def find_similar_jobs (genv : GenAIEnv) (senv : SearchEnv) (cv_text : String)
    (top_k : Nat) : Except String (List JobMatch) :=
  match get_cv_embedding genv cv_text with
  | none => .ok []
  | some emb =>
    if emb = [] then .ok []
    else
      match senv.search emb top_k with
      | .error e => .error e
      | .ok hits => .ok (hits.map fun h =>
          { job_id := h.id
            score := h.score
            title := ((payloadText h.payload).splitOn ":").headD ""
            description := (payloadText h.payload).take 200 ++ "..."
            metadata := fun k => if k = "text" then none else h.payload k })

/-! ### Claim C3 -/

/-- C3 counterexample: when the query-time embedding step cannot
produce a vector, `find_similar_jobs` does not fail with an
`EmbeddingUnavailable` (or any) error — it returns the ordinary result
`[]`. The search environment here raises on any call, so the very fact
that the outcome is `.ok []` also shows the similarity search was never
performed. -/
theorem find_similar_embed_failure_counterexample :
    find_similar_jobs ⟨fun _ => none⟩ ⟨fun _ _ => .error "search invoked"⟩ "cv" 5 =
      .ok [] := rfl

/-- C3 amended: if the query embedding step cannot produce a vector
(returns `None`) — or degenerately produces an empty, falsy one —
`find_similar_jobs` logs and returns the empty result list as a normal
value rather than failing with an `EmbeddingUnavailable` error; it does
not substitute any vector and does not perform the similarity search
(the outcome is the same for every search environment, including one
whose every call raises). -/
theorem find_similar_embed_failure_behavior (genv : GenAIEnv) (senv : SearchEnv)
    (cv_text : String) (top_k : Nat) :
    (genv.queryEmbed cv_text = none →
      find_similar_jobs genv senv cv_text top_k = .ok []) ∧
    (genv.queryEmbed cv_text = some [] →
      find_similar_jobs genv senv cv_text top_k = .ok []) := by
  constructor
  · intro h
    simp only [find_similar_jobs, get_cv_embedding, h]
  · intro h
    simp only [find_similar_jobs, get_cv_embedding, h]
    rfl

/-- Witness for the amended C3: a failing embedding oracle, a poisoned
search environment. -/
theorem find_similar_embed_failure_behavior_witness :
    ((⟨fun _ => none⟩ : GenAIEnv).queryEmbed "cv" = none →
      find_similar_jobs ⟨fun _ => none⟩ ⟨fun _ _ => .error "search invoked"⟩ "cv" 5 =
        .ok []) ∧
    ((⟨fun _ => none⟩ : GenAIEnv).queryEmbed "cv" = some [] →
      find_similar_jobs ⟨fun _ => none⟩ ⟨fun _ _ => .error "search invoked"⟩ "cv" 5 =
        .ok []) :=
  find_similar_embed_failure_behavior ⟨fun _ => none⟩ ⟨fun _ _ => .error "search invoked"⟩
    "cv" 5
